import Mathlib

/-!
Verification of the cluster-info fanout operation of valkey-search
(src/src/query/cluster_info_fanout_operation.h) and of the FT.TESTCALL
debug command implemented in the same translation unit.

The header declares `ClusterInfoFanoutOperation`; the bodies of its
overrides (OnResponse, ShouldRetry, ResetForRetry, ...) and of the generic
`FanoutOperationBase` driver live outside the provided sources, so those
parts are modelled from the specification (each such definition carries a
doc comment starting with `Modelled from the spec:`).  `FTTestCallCmd` is
present in full and is embedded directly from its source.
-/

namespace ValkeySearch

/-- Cluster member descriptor (spec section 3: Node is {id, address, role};
used only as a dispatch key, never mutated). -/
structure NodeInfo where
  id : Nat
  address : String
  role : String
deriving DecidableEq

/-- Modelled from the spec: the enumerated per-partition status carried in
the wire response (`state`); the aggregate keeps the "worst" of them, e.g.
any node still backfilling forces the aggregate away from "ready". -/
inductive PartitionState where
  | ready
  | backfillInProgress
  | notReady
deriving DecidableEq

/-- Severity used to pick the "worst" (least-ready) partition state. -/
def PartitionState.severity : PartitionState → Nat
  | .ready => 0
  | .backfillInProgress => 1
  | .notReady => 2

/-- Modelled from the spec: the worst-of combiner for partition states. -/
def worstState (a b : PartitionState) : PartitionState :=
  if a.severity < b.severity then b else a

/-- Per-node wire response (spec section 6): {exists, fingerprint_version
(optional), backfill_percent, backfill_in_progress, state}.  The opaque
fingerprint-version token is modelled as a natural number; the float
percentage is modelled as a rational. -/
structure InfoIndexPartitionResponse where
  exists_ : Bool
  fingerprint_version : Option Nat
  backfill_percent : Rat
  backfill_in_progress : Bool
  state : PartitionState
deriving DecidableEq

/-- Per-node wire request (spec section 6): {db_num, index_name}. -/
structure InfoIndexPartitionRequest where
  db_num : Nat
  index_name : String
deriving DecidableEq

/-- The accumulator fields of `ClusterInfoFanoutOperation` (header lines
66-75), plus the two pieces of per-attempt bookkeeping the spec requires:
the RetryState stale flag (set on a fingerprint-version mismatch) and the
count of responses folded so far (the running extremes are "seeded from
the first response"). -/
structure AggregatedResult where
  exists_ : Bool
  index_fingerprint_version_ : Option Nat
  backfill_complete_percent_max_ : Rat
  backfill_complete_percent_min_ : Rat
  backfill_in_progress_ : Bool
  state_ : PartitionState
  stale_ : Bool
  responded_ : Nat
deriving DecidableEq

/-- Modelled from the spec: the fresh accumulator of one attempt
(`exists` starts true, `fingerprint_version` unset, stale flag clear,
nothing folded yet). -/
def initAggregatedResult : AggregatedResult :=
  { exists_ := true
    index_fingerprint_version_ := none
    backfill_complete_percent_max_ := 0
    backfill_complete_percent_min_ := 0
    backfill_in_progress_ := false
    state_ := PartitionState.ready
    stale_ := false
    responded_ := 0 }

/-- Modelled from the spec: `ClusterInfoFanoutOperation::OnResponse` folds
one partition's answer into the accumulator: AND into `exists`, pin the
first observed fingerprint version and flag the attempt stale on any later
mismatch, run min/max over the backfill percentages (seeded from the first
response), OR into `backfill_in_progress`, worst-of into `state`. -/
def onResponse (s : AggregatedResult) (r : InfoIndexPartitionResponse) :
    AggregatedResult :=
  let newExists := s.exists_ && r.exists_
  let pin :=
    match r.fingerprint_version, s.index_fingerprint_version_ with
    | none, cur => (cur, s.stale_)
    | some v, none => (some v, s.stale_)
    | some v, some w => (some w, s.stale_ || (v != w))
  let extremes :=
    if s.responded_ = 0 then (r.backfill_percent, r.backfill_percent)
    else (min s.backfill_complete_percent_min_ r.backfill_percent,
          max s.backfill_complete_percent_max_ r.backfill_percent)
  { exists_ := newExists
    index_fingerprint_version_ := pin.1
    backfill_complete_percent_max_ := extremes.2
    backfill_complete_percent_min_ := extremes.1
    backfill_in_progress_ := s.backfill_in_progress_ || r.backfill_in_progress
    state_ := worstState s.state_ r.state
    stale_ := pin.2
    responded_ := s.responded_ + 1 }

/-- Modelled from the spec: `ShouldRetry()` is true iff a
fingerprint-version mismatch was observed during the current attempt,
i.e. iff the stale flag is set. -/
def shouldRetry (s : AggregatedResult) : Bool :=
  s.stale_

/-- Modelled from the spec: `ResetForRetry()` clears the accumulator back
to its initial values for a fresh attempt. -/
def resetForRetry (_s : AggregatedResult) : AggregatedResult :=
  initAggregatedResult

/-- Outcome of contacting one node: either its response arrived, or the
node was unreachable / answered with an error ("this node did not
answer"). -/
inductive Outcome where
  | success (r : InfoIndexPartitionResponse)
  | failure
deriving DecidableEq

/-- Modelled from the spec: the coordinator folds a successful completion
through `OnResponse`; a failed node is folded as equivalent to "does not
exist" for that partition. -/
def onOutcome (s : AggregatedResult) (o : Outcome) : AggregatedResult :=
  match o with
  | .success r => onResponse s r
  | .failure => { s with exists_ := false }

/-- Per-node exists value an outcome contributes: a node that failed or
did not answer counts as `exists = false`. -/
def outcomeExists : Outcome → Bool
  | .success r => r.exists_
  | .failure => false

/-- Fold a whole attempt's responses, in arrival order, into a fresh
accumulator. -/
def foldResponses (l : List InfoIndexPartitionResponse) : AggregatedResult :=
  l.foldl onResponse initAggregatedResult

/-- Fold a whole attempt's per-node outcomes, in arrival order, into a
fresh accumulator. -/
def foldOutcomes (l : List Outcome) : AggregatedResult :=
  l.foldl onOutcome initAggregatedResult

/-- Constructor arguments of `ClusterInfoFanoutOperation` (header line 29):
{db_num, index_name, timeout_ms}. -/
structure FanoutParams where
  db_num_ : Nat
  index_name_ : String
  timeout_ms_ : Nat
deriving DecidableEq

/-- Modelled from the spec: `GenerateRequest(node)` builds the identical
{db_num, index_name} payload for every target; the node argument is
unused. -/
def generateRequest (p : FanoutParams) (_node : NodeInfo) :
    InfoIndexPartitionRequest :=
  { db_num := p.db_num_, index_name := p.index_name_ }

/-- `GetTimeoutMs()` returns the stored round timeout. -/
def getTimeoutMs (p : FanoutParams) : Nat :=
  p.timeout_ms_

/-- Terminal failures of the fanout driver (spec section 7):
TopologyEmpty ("not found") and RoundTimeout. -/
inductive FanoutError where
  | topologyEmpty
  | roundTimeout
deriving DecidableEq

/-- The external world one execution observes, per attempt index: the
resolved target set (re-resolved fresh on every retry), each node's
outcome, and whether that node answered before the round deadline. -/
structure FanoutEnv where
  targetsAt : Nat → List NodeInfo
  outcomeAt : Nat → NodeInfo → Outcome
  coveredAt : Nat → NodeInfo → Bool

/-- The accumulator produced by folding every target's outcome of attempt
`i` into a fresh accumulator. -/
def attemptAgg (env : FanoutEnv) (i : Nat) : AggregatedResult :=
  foldOutcomes ((env.targetsAt i).map (env.outcomeAt i))

/-- Modelled from the spec: one scatter-gather attempt (spec section 4.1).
An empty resolved target set is the terminal TopologyEmpty failure; if the
deadline elapses before every target has answered the attempt is the
terminal RoundTimeout failure; otherwise every outcome is folded into a
fresh accumulator. -/
def attemptResult (env : FanoutEnv) (i : Nat) :
    Except FanoutError AggregatedResult :=
  let ts := env.targetsAt i
  if ts.isEmpty then Except.error FanoutError.topologyEmpty
  else if ts.all (env.coveredAt i) then Except.ok (attemptAgg env i)
  else Except.error FanoutError.roundTimeout

/-- Modelled from the spec: the retry loop from attempt `i` with
`remaining` retries left in the budget.  After a successful attempt,
`ShouldRetry` decides whether to run another attempt; when the budget is
exhausted the best-effort aggregate is returned (its stale flag still
set).  Returns the final aggregate together with the number of attempts
performed. -/
def runFrom (env : FanoutEnv) :
    Nat → Nat → Except FanoutError (AggregatedResult × Nat)
  | i, remaining =>
    match attemptResult env i with
    | Except.error e => Except.error e
    | Except.ok s =>
      if shouldRetry s then
        match remaining with
        | 0 => Except.ok (s, i + 1)
        | r + 1 => runFrom env (i + 1) r
      else Except.ok (s, i + 1)

/-- Modelled from the spec: `Execute` runs at most `cap` attempts
(`cap ≥ 1` is the hard attempt cap). -/
def execute (env : FanoutEnv) (cap : Nat) :
    Except FanoutError (AggregatedResult × Nat) :=
  runFrom env 0 (cap - 1)

/-- A reply value returned by `ValkeyModule_Call`, as inspected by
`FTTestCallCmd`: strings, errors, integers, arrays, or anything else
(modelled as `null`). -/
inductive CallReply where
  | str (s : String)
  | err (s : String)
  | intg (n : Int)
  | arr (elems : List CallReply)
  | null

/-- `ValkeyModule_CallReplyType`: the integer type tag of a reply
(VALKEYMODULE_REPLY_STRING 0, ERROR 1, INTEGER 2, ARRAY 3, NULL 4). -/
def callReplyType : CallReply → Int
  | .str _ => 0
  | .err _ => 1
  | .intg _ => 2
  | .arr _ => 3
  | .null => 4

/-- `ValkeyModule_CallReplyStringPtr`: the character data of a string or
error reply (empty for other types, whose pointer would be NULL). -/
def callReplyStringPtr : CallReply → String
  | .str s => s
  | .err s => s
  | _ => ""

/-- `ValkeyModule_CallReplyInteger`: the value of an integer reply. -/
def callReplyInteger : CallReply → Int
  | .intg n => n
  | _ => 0

/-- One effect `FTTestCallCmd` has on the module reply channel:
`ValkeyModule_ReplyWithArray(ctx, VALKEYMODULE_POSTPONED_LEN)`,
`ValkeyModule_ReplyWithSimpleString(ctx, s)`, or
`ValkeyModule_ReplySetArrayLength(ctx, n)`. -/
inductive ReplyEvent where
  | arrayPostponed
  | simpleString (s : String)
  | setArrayLength (n : Nat)
deriving DecidableEq

/-- The local state `FTTestCallCmd` threads through its body: the reply
events emitted so far and the running `reply_count` counter. -/
structure RState where
  events : List ReplyEvent
  count : Nat
deriving DecidableEq

/-- One `ValkeyModule_ReplyWithSimpleString(ctx, s)` immediately followed
by `reply_count++`, the idiom used at every emission site of
`FTTestCallCmd`. -/
def replyAndCount (st : RState) (s : String) : RState :=
  { events := st.events ++ [ReplyEvent.simpleString s], count := st.count + 1 }

/-- The body of the node loop of `FTTestCallCmd` (source lines 183-229)
for one element: skip anything that is not an array reply, then, when the
node array has at least an IP and a port, emit one "Master:/Replica:"
line (with the node ID when a third element is present). -/
def processNode (st : RState) (ty : String) (node : CallReply) : RState :=
  match node with
  | .arr (ipReply :: portReply :: rest) =>
    let ip := callReplyStringPtr ipReply
    let port := callReplyInteger portReply
    let node_id := match rest with
      | idReply :: _ => callReplyStringPtr idReply
      | [] => ""
    let node_msg :=
      if node_id ≠ "" then
        ty ++ ": " ++ ip ++ ":" ++ toString port ++ " (ID: " ++ node_id ++ ")"
      else
        ty ++ ": " ++ ip ++ ":" ++ toString port
    replyAndCount st node_msg
  | _ => st

/-- The node loop of `FTTestCallCmd` from index `j` (the element at index
2 is labelled "Master", later ones "Replica"). -/
def processNodes (st : RState) (j : Nat) : List CallReply → RState
  | [] => st
  | node :: rest =>
    processNodes (processNode st (if j = 2 then "Master" else "Replica") node)
      (j + 1) rest

/-- The body of the slot-range loop of `FTTestCallCmd` (source lines
153-230) for one element: skip non-array elements, emit the separator,
emit the start/end slots when present, then run the node loop from index
2. -/
def processSlotRange (st : RState) (i : Nat) (slot_range : CallReply) :
    RState :=
  match slot_range with
  | .arr elems =>
    let st1 := replyAndCount st ("--- Slot Range " ++ toString i ++ " ---")
    let st2 := match elems with
      | startSlot :: endSlot :: _ =>
        replyAndCount st1
          ("Slots: " ++ toString (callReplyInteger startSlot) ++ " to " ++
            toString (callReplyInteger endSlot))
      | _ => st1
    processNodes st2 2 (elems.drop 2)
  | _ => st

/-- The slot-range loop of `FTTestCallCmd` from index `i`. -/
def processSlotRanges (st : RState) (i : Nat) : List CallReply → RState
  | [] => st
  | slot_range :: rest =>
    processSlotRanges (processSlotRange st i slot_range) (i + 1) rest

/-- What the environment supplies to one `FTTestCallCmd` invocation: the
reply of `ValkeyModule_Call(ctx, "CLUSTER", "c", "SLOTS")` (`none` models
a NULL return) and the value of `errno` at that point. -/
structure TestCallEnv where
  clusterSlotsReply : Option CallReply
  errnoVal : Int

/-- The command-dispatch block of `FTTestCallCmd` (source lines 122-237):
the CLUSTER_SLOTS inspection (NULL reply, error reply, array walk, or
silent fallthrough for other reply types) or the unknown-command line. -/
def runCommand (env : TestCallEnv) (command : String) (st2 : RState) :
    RState :=
  if command = "CLUSTER_SLOTS" then
    match env.clusterSlotsReply with
    | none =>
      replyAndCount st2 ("Result: NULL (errno=" ++ toString env.errnoVal ++ ")")
    | some reply =>
      let st := replyAndCount st2 ("Reply Type: " ++ toString (callReplyType reply))
      match reply with
      | .err e => replyAndCount st ("Error: " ++ e)
      | .arr slots =>
        let st := replyAndCount st ("Number of slot ranges: " ++ toString slots.length)
        processSlotRanges st 0 slots
      | _ => st
  else
    replyAndCount st2 "Unknown test. Available: CLUSTER_SLOTS"

/-- `FTTestCallCmd` (source lines 97-241): with fewer than two arguments
it returns InvalidArgumentError before touching the reply channel;
otherwise it opens a postponed-length array, emits the banner and command
lines, runs the CLUSTER_SLOTS inspection or the unknown-command line,
finalizes the array length with `reply_count`, and returns OkStatus.  The
result pairs the returned status (errors carry their message) with the
emitted reply events. -/
def ftTestCallCmd (env : TestCallEnv) (argv : List String) :
    Except String Unit × List ReplyEvent :=
  if argv.length < 2 then
    (Except.error "Usage: FT.TESTCALL <command> [args...]", [])
  else
    let command := argv.getD 1 ""
    let st0 : RState := { events := [ReplyEvent.arrayPostponed], count := 0 }
    let st1 := replyAndCount st0 "=== Testing ValkeyModule_Call ==="
    let st2 := replyAndCount st1 ("Command: " ++ command)
    let st3 := runCommand env command st2
    (Except.ok (), st3.events ++ [ReplyEvent.setArrayLength st3.count])

/-! Observations of one attempt's response list, used to characterize the
fold field by field. -/

/-- The fingerprint versions actually observed in a response list (those
responses that carry one, in arrival order). -/
def versionsOf (l : List InfoIndexPartitionResponse) : List Nat :=
  l.filterMap (fun r => r.fingerprint_version)

/-- The backfill percentages of a response list, in arrival order. -/
def percentsOf (l : List InfoIndexPartitionResponse) : List Rat :=
  l.map (fun r => r.backfill_percent)

/-- The partition states of a response list, in arrival order. -/
def statesOf (l : List InfoIndexPartitionResponse) : List PartitionState :=
  l.map (fun r => r.state)

/-- Whether a version list contains a mismatch against its first element:
exactly the condition under which the pin-then-flag fold sets the stale
flag starting from an unset pin. -/
def staleOf : List Nat → Bool
  | [] => false
  | v :: vs => vs.any (fun w => w != v)

/-- Running-minimum step on an optional accumulator (`none` = nothing
folded yet, so the first percentage seeds the extreme). -/
def minStep (a : Option Rat) (p : Rat) : Option Rat :=
  match a with
  | none => some p
  | some m => some (min m p)

/-- Running-maximum step on an optional accumulator. -/
def maxStep (a : Option Rat) (p : Rat) : Option Rat :=
  match a with
  | none => some p
  | some m => some (max m p)

/-- The minimum field of the accumulator viewed as an optional value:
meaningless (`none`) until a first response has been folded. -/
def repMin (s : AggregatedResult) : Option Rat :=
  if s.responded_ = 0 then none else some s.backfill_complete_percent_min_

/-- The maximum field of the accumulator viewed as an optional value. -/
def repMax (s : AggregatedResult) : Option Rat :=
  if s.responded_ = 0 then none else some s.backfill_complete_percent_max_

lemma fold_exists_eq (l : List InfoIndexPartitionResponse) :
    ∀ s : AggregatedResult,
      (l.foldl onResponse s).exists_ = (s.exists_ && l.all (fun r => r.exists_)) := by
  induction l with
  | nil => intro s; simp
  | cons r t ih =>
    intro s
    simp only [List.foldl_cons, List.all_cons, ih, onResponse, Bool.and_assoc]

lemma fold_bip_eq (l : List InfoIndexPartitionResponse) :
    ∀ s : AggregatedResult,
      (l.foldl onResponse s).backfill_in_progress_ =
        (s.backfill_in_progress_ || l.any (fun r => r.backfill_in_progress)) := by
  induction l with
  | nil => intro s; simp
  | cons r t ih =>
    intro s
    simp only [List.foldl_cons, List.any_cons, ih, onResponse, Bool.or_assoc]

lemma fold_responded_eq (l : List InfoIndexPartitionResponse) :
    ∀ s : AggregatedResult,
      (l.foldl onResponse s).responded_ = s.responded_ + l.length := by
  induction l with
  | nil => intro s; simp
  | cons r t ih =>
    intro s
    simp only [List.foldl_cons, List.length_cons, ih, onResponse]
    omega

lemma fold_state_eq (l : List InfoIndexPartitionResponse) :
    ∀ s : AggregatedResult,
      (l.foldl onResponse s).state_ = (statesOf l).foldl worstState s.state_ := by
  induction l with
  | nil => intro s; simp [statesOf]
  | cons r t ih =>
    intro s
    simp only [List.foldl_cons, statesOf, List.map_cons, ih, onResponse]

lemma onResponse_repMin (s : AggregatedResult) (r : InfoIndexPartitionResponse) :
    repMin (onResponse s r) = minStep (repMin s) r.backfill_percent := by
  by_cases h : s.responded_ = 0 <;>
    simp [repMin, minStep, onResponse, h]

lemma onResponse_repMax (s : AggregatedResult) (r : InfoIndexPartitionResponse) :
    repMax (onResponse s r) = maxStep (repMax s) r.backfill_percent := by
  by_cases h : s.responded_ = 0 <;>
    simp [repMax, maxStep, onResponse, h]

lemma fold_repMin_eq (l : List InfoIndexPartitionResponse) :
    ∀ s : AggregatedResult,
      repMin (l.foldl onResponse s) = (percentsOf l).foldl minStep (repMin s) := by
  induction l with
  | nil => intro s; simp [percentsOf]
  | cons r t ih =>
    intro s
    simp only [List.foldl_cons, percentsOf, List.map_cons, ih, onResponse_repMin]

lemma fold_repMax_eq (l : List InfoIndexPartitionResponse) :
    ∀ s : AggregatedResult,
      repMax (l.foldl onResponse s) = (percentsOf l).foldl maxStep (repMax s) := by
  induction l with
  | nil => intro s; simp [percentsOf]
  | cons r t ih =>
    intro s
    simp only [List.foldl_cons, percentsOf, List.map_cons, ih, onResponse_repMax]

lemma fold_pin_some (l : List InfoIndexPartitionResponse) :
    ∀ (s : AggregatedResult) (w : Nat),
      s.index_fingerprint_version_ = some w →
      (l.foldl onResponse s).index_fingerprint_version_ = some w := by
  induction l with
  | nil => intro s w h; simpa using h
  | cons r t ih =>
    intro s w h
    simp only [List.foldl_cons]
    apply ih
    simp only [onResponse, h]
    cases r.fingerprint_version <;> rfl

lemma fold_stale_some (l : List InfoIndexPartitionResponse) :
    ∀ (s : AggregatedResult) (w : Nat),
      s.index_fingerprint_version_ = some w →
      (l.foldl onResponse s).stale_ =
        (s.stale_ || (versionsOf l).any (fun v => v != w)) := by
  induction l with
  | nil => intro s w _; simp [versionsOf]
  | cons r t ih =>
    intro s w h
    simp only [List.foldl_cons, versionsOf, List.filterMap_cons]
    cases hv : r.fingerprint_version with
    | none =>
      have hpin : (onResponse s r).index_fingerprint_version_ = some w := by
        simp [onResponse, hv, h]
      have hst : (onResponse s r).stale_ = s.stale_ := by
        simp [onResponse, hv, h]
      rw [ih (onResponse s r) w hpin, hst, versionsOf]
    | some v =>
      have hpin : (onResponse s r).index_fingerprint_version_ = some w := by
        simp [onResponse, hv, h]
      have hst : (onResponse s r).stale_ = (s.stale_ || (v != w)) := by
        simp [onResponse, hv, h]
      rw [ih (onResponse s r) w hpin, hst, versionsOf]
      simp [List.any_cons, Bool.or_assoc]

lemma fold_pin_none (l : List InfoIndexPartitionResponse) :
    ∀ s : AggregatedResult,
      s.index_fingerprint_version_ = none →
      (l.foldl onResponse s).index_fingerprint_version_ = (versionsOf l).head? := by
  induction l with
  | nil => intro s h; simpa [versionsOf] using h
  | cons r t ih =>
    intro s h
    simp only [List.foldl_cons, versionsOf, List.filterMap_cons]
    cases hv : r.fingerprint_version with
    | none =>
      have hpin : (onResponse s r).index_fingerprint_version_ = none := by
        simp [onResponse, hv, h]
      rw [ih (onResponse s r) hpin, versionsOf]
    | some v =>
      have hpin : (onResponse s r).index_fingerprint_version_ = some v := by
        simp [onResponse, hv, h]
      rw [fold_pin_some t (onResponse s r) v hpin]
      rfl

lemma fold_stale_none (l : List InfoIndexPartitionResponse) :
    ∀ s : AggregatedResult,
      s.index_fingerprint_version_ = none →
      (l.foldl onResponse s).stale_ = (s.stale_ || staleOf (versionsOf l)) := by
  induction l with
  | nil => intro s _; simp [versionsOf, staleOf]
  | cons r t ih =>
    intro s h
    simp only [List.foldl_cons, versionsOf, List.filterMap_cons]
    cases hv : r.fingerprint_version with
    | none =>
      have hpin : (onResponse s r).index_fingerprint_version_ = none := by
        simp [onResponse, hv, h]
      have hst : (onResponse s r).stale_ = s.stale_ := by
        simp [onResponse, hv, h]
      rw [ih (onResponse s r) hpin, hst, versionsOf]
    | some v =>
      have hpin : (onResponse s r).index_fingerprint_version_ = some v := by
        simp [onResponse, hv, h]
      have hst : (onResponse s r).stale_ = s.stale_ := by
        simp [onResponse, hv, h]
      rw [fold_stale_some t (onResponse s r) v hpin, hst]
      rfl

lemma perm_all_eq {α : Type} (f : α → Bool) {l₁ l₂ : List α}
    (h : l₁.Perm l₂) : l₁.all f = l₂.all f := by
  induction h with
  | nil => rfl
  | cons x _ ih => simp [List.all_cons, ih]
  | swap x y l =>
    simp only [List.all_cons, ← Bool.and_assoc]
    rw [Bool.and_comm (f y) (f x)]
  | trans _ _ ih₁ ih₂ => rw [ih₁, ih₂]

lemma perm_any_eq {α : Type} (f : α → Bool) {l₁ l₂ : List α}
    (h : l₁.Perm l₂) : l₁.any f = l₂.any f := by
  induction h with
  | nil => rfl
  | cons x _ ih => simp [List.any_cons, ih]
  | swap x y l =>
    simp only [List.any_cons, ← Bool.or_assoc]
    rw [Bool.or_comm (f y) (f x)]
  | trans _ _ ih₁ ih₂ => rw [ih₁, ih₂]

lemma worstState_right_comm :
    ∀ z x y, worstState (worstState z x) y = worstState (worstState z y) x := by
  intro z x y
  cases z <;> cases x <;> cases y <;> rfl

lemma minStep_right_comm :
    ∀ (z : Option Rat) (x y : Rat),
      minStep (minStep z x) y = minStep (minStep z y) x := by
  intro z x y
  cases z with
  | none => simp [minStep, min_comm]
  | some m => simp [minStep, min_assoc, min_comm x y]

lemma maxStep_right_comm :
    ∀ (z : Option Rat) (x y : Rat),
      maxStep (maxStep z x) y = maxStep (maxStep z y) x := by
  intro z x y
  cases z with
  | none => simp [maxStep, max_comm]
  | some m => simp [maxStep, max_assoc, max_comm x y]

lemma staleOf_eq_true_iff (vs : List Nat) :
    staleOf vs = true ↔ ∃ a ∈ vs, ∃ b ∈ vs, a ≠ b := by
  cases vs with
  | nil => simp [staleOf]
  | cons v t =>
    simp only [staleOf, List.any_eq_true, bne_iff_ne]
    constructor
    · rintro ⟨w, hw, hne⟩
      exact ⟨w, List.mem_cons_of_mem v hw, v, List.mem_cons_self v t, hne⟩
    · rintro ⟨a, ha, b, hb, hne⟩
      by_cases hav : a = v
      · have hbv : b ≠ v := fun hb' => hne (hav.trans hb'.symm)
        have hbt : b ∈ t := by
          rcases List.mem_cons.mp hb with h' | h'
          · exact absurd h' hbv
          · exact h'
        exact ⟨b, hbt, hbv⟩
      · have hat : a ∈ t := by
          rcases List.mem_cons.mp ha with h' | h'
          · exact absurd h' hav
          · exact h'
        exact ⟨a, hat, hav⟩

lemma staleOf_perm_eq {vs₁ vs₂ : List Nat} (h : vs₁.Perm vs₂) :
    staleOf vs₁ = staleOf vs₂ := by
  cases h₁ : staleOf vs₁ with
  | true =>
    rcases (staleOf_eq_true_iff vs₁).mp h₁ with ⟨a, ha, b, hb, hne⟩
    exact ((staleOf_eq_true_iff vs₂).mpr
      ⟨a, h.mem_iff.mp ha, b, h.mem_iff.mp hb, hne⟩).symm
  | false =>
    cases h₂ : staleOf vs₂ with
    | true =>
      rcases (staleOf_eq_true_iff vs₂).mp h₂ with ⟨a, ha, b, hb, hne⟩
      have := (staleOf_eq_true_iff vs₁).mpr
        ⟨a, h.mem_iff.mpr ha, b, h.mem_iff.mpr hb, hne⟩
      rw [h₁] at this
      exact absurd this (by simp)
    | false => rfl

lemma staleOf_false_all_eq (vs : List Nat) (h : staleOf vs = false) :
    ∀ a ∈ vs, ∀ b ∈ vs, a = b := by
  intro a ha b hb
  by_contra hne
  have := (staleOf_eq_true_iff vs).mpr ⟨a, ha, b, hb, hne⟩
  rw [h] at this
  exact absurd this (by simp)

lemma head_eq_of_perm_of_all_eq {vs₁ vs₂ : List Nat} (h : vs₁.Perm vs₂)
    (hall : ∀ a ∈ vs₁, ∀ b ∈ vs₁, a = b) : vs₁.head? = vs₂.head? := by
  cases vs₁ with
  | nil =>
    have h0 : vs₂.length = 0 := by simpa using h.length_eq.symm
    rw [List.length_eq_zero.mp h0]
  | cons v t =>
    cases vs₂ with
    | nil => simpa using h.length_eq
    | cons w u =>
      have hw : w ∈ v :: t := h.mem_iff.mpr (List.mem_cons_self w u)
      have := hall v (List.mem_cons_self v t) w hw
      simp [this]

lemma aggregatedResult_ext (a b : AggregatedResult)
    (h₁ : a.exists_ = b.exists_)
    (h₂ : a.index_fingerprint_version_ = b.index_fingerprint_version_)
    (h₃ : a.backfill_complete_percent_max_ = b.backfill_complete_percent_max_)
    (h₄ : a.backfill_complete_percent_min_ = b.backfill_complete_percent_min_)
    (h₅ : a.backfill_in_progress_ = b.backfill_in_progress_)
    (h₆ : a.state_ = b.state_)
    (h₇ : a.stale_ = b.stale_)
    (h₈ : a.responded_ = b.responded_) : a = b := by
  cases a
  cases b
  simp_all

/-- All accumulator fields except the pinned fingerprint version. -/
def resultCore (s : AggregatedResult) :
    Bool × Bool × Rat × Rat × Bool × PartitionState × Nat :=
  (s.exists_, s.stale_, s.backfill_complete_percent_min_,
    s.backfill_complete_percent_max_, s.backfill_in_progress_, s.state_,
    s.responded_)

lemma repMin_field_eq {s₁ s₂ : AggregatedResult}
    (h : repMin s₁ = repMin s₂) (h₁ : s₁.responded_ ≠ 0)
    (h₂ : s₂.responded_ ≠ 0) :
    s₁.backfill_complete_percent_min_ = s₂.backfill_complete_percent_min_ := by
  simp only [repMin, if_neg h₁, if_neg h₂, Option.some.injEq] at h
  exact h

lemma repMax_field_eq {s₁ s₂ : AggregatedResult}
    (h : repMax s₁ = repMax s₂) (h₁ : s₁.responded_ ≠ 0)
    (h₂ : s₂.responded_ ≠ 0) :
    s₁.backfill_complete_percent_max_ = s₂.backfill_complete_percent_max_ := by
  simp only [repMax, if_neg h₁, if_neg h₂, Option.some.injEq] at h
  exact h

lemma foldResponses_responded (l : List InfoIndexPartitionResponse) :
    (foldResponses l).responded_ = l.length := by
  rw [foldResponses, fold_responded_eq]
  simp [initAggregatedResult]

lemma foldResponses_stale (l : List InfoIndexPartitionResponse) :
    (foldResponses l).stale_ = staleOf (versionsOf l) := by
  rw [foldResponses, fold_stale_none l initAggregatedResult rfl]
  rfl

lemma foldResponses_pin (l : List InfoIndexPartitionResponse) :
    (foldResponses l).index_fingerprint_version_ = (versionsOf l).head? :=
  fold_pin_none l initAggregatedResult rfl

lemma foldResponses_min_eq {l₁ l₂ : List InfoIndexPartitionResponse}
    (h : l₁.Perm l₂) :
    (foldResponses l₁).backfill_complete_percent_min_ =
      (foldResponses l₂).backfill_complete_percent_min_ := by
  by_cases hlen : l₁.length = 0
  · have e₁ : l₁ = [] := List.length_eq_zero.mp hlen
    have e₂ : l₂ = [] := List.length_eq_zero.mp (by rw [← h.length_eq]; exact hlen)
    rw [e₁, e₂]
  · have hp : (percentsOf l₁).Perm (percentsOf l₂) := by
      simpa [percentsOf] using h.map (fun r => r.backfill_percent)
    have hrep : repMin (foldResponses l₁) = repMin (foldResponses l₂) := by
      rw [foldResponses, foldResponses, fold_repMin_eq, fold_repMin_eq]
      exact hp.foldl_eq' (fun x _ y _ z => minStep_right_comm z x y) _
    refine repMin_field_eq hrep ?_ ?_
    · rw [foldResponses_responded]; exact hlen
    · rw [foldResponses_responded, ← h.length_eq]; exact hlen

lemma foldResponses_max_eq {l₁ l₂ : List InfoIndexPartitionResponse}
    (h : l₁.Perm l₂) :
    (foldResponses l₁).backfill_complete_percent_max_ =
      (foldResponses l₂).backfill_complete_percent_max_ := by
  by_cases hlen : l₁.length = 0
  · have e₁ : l₁ = [] := List.length_eq_zero.mp hlen
    have e₂ : l₂ = [] := List.length_eq_zero.mp (by rw [← h.length_eq]; exact hlen)
    rw [e₁, e₂]
  · have hp : (percentsOf l₁).Perm (percentsOf l₂) := by
      simpa [percentsOf] using h.map (fun r => r.backfill_percent)
    have hrep : repMax (foldResponses l₁) = repMax (foldResponses l₂) := by
      rw [foldResponses, foldResponses, fold_repMax_eq, fold_repMax_eq]
      exact hp.foldl_eq' (fun x _ y _ z => maxStep_right_comm z x y) _
    refine repMax_field_eq hrep ?_ ?_
    · rw [foldResponses_responded]; exact hlen
    · rw [foldResponses_responded, ← h.length_eq]; exact hlen

/-- C1: folding one attempt's responses is arrival-order independent in
every accumulator field except the pinned fingerprint version, which is
itself order independent whenever no mismatch was observed (stale flag
clear); in that case the whole folded accumulator is identical across
permutations. -/
theorem foldResponses_perm_agree (l₁ l₂ : List InfoIndexPartitionResponse)
    (h : l₁.Perm l₂) :
    resultCore (foldResponses l₁) = resultCore (foldResponses l₂) ∧
    ((foldResponses l₁).stale_ = false → foldResponses l₁ = foldResponses l₂) := by
  have hvers : (versionsOf l₁).Perm (versionsOf l₂) := by
    simpa [versionsOf] using h.filterMap (fun r => r.fingerprint_version)
  have hexists : (foldResponses l₁).exists_ = (foldResponses l₂).exists_ := by
    rw [foldResponses, foldResponses, fold_exists_eq, fold_exists_eq,
      perm_all_eq _ h]
  have hstale : (foldResponses l₁).stale_ = (foldResponses l₂).stale_ := by
    rw [foldResponses_stale, foldResponses_stale]
    exact staleOf_perm_eq hvers
  have hmin := foldResponses_min_eq h
  have hmax := foldResponses_max_eq h
  have hbip : (foldResponses l₁).backfill_in_progress_ =
      (foldResponses l₂).backfill_in_progress_ := by
    rw [foldResponses, foldResponses, fold_bip_eq, fold_bip_eq,
      perm_any_eq _ h]
  have hstate : (foldResponses l₁).state_ = (foldResponses l₂).state_ := by
    have hs : (statesOf l₁).Perm (statesOf l₂) := by
      simpa [statesOf] using h.map (fun r => r.state)
    rw [foldResponses, foldResponses, fold_state_eq, fold_state_eq]
    exact hs.foldl_eq' (fun x _ y _ z => worstState_right_comm z x y) _
  have hresp : (foldResponses l₁).responded_ = (foldResponses l₂).responded_ := by
    rw [foldResponses_responded, foldResponses_responded, h.length_eq]
  refine ⟨?_, ?_⟩
  · simp only [resultCore, hexists, hstale, hmin, hmax, hbip, hstate, hresp]
  · intro hfalse
    have hs : staleOf (versionsOf l₁) = false := by
      rw [← foldResponses_stale]; exact hfalse
    have hifv : (foldResponses l₁).index_fingerprint_version_ =
        (foldResponses l₂).index_fingerprint_version_ := by
      rw [foldResponses_pin, foldResponses_pin]
      exact head_eq_of_perm_of_all_eq hvers (staleOf_false_all_eq _ hs)
    exact aggregatedResult_ext _ _ hexists hifv hmax hmin hbip hstate hstale hresp

/-- Witness for C1 at a concrete pair of permuted response lists. -/
theorem foldResponses_perm_agree_witness :
    (([{ exists_ := true, fingerprint_version := some 5, backfill_percent := 20,
          backfill_in_progress := false, state := PartitionState.ready },
        { exists_ := true, fingerprint_version := some 5, backfill_percent := 40,
          backfill_in_progress := true, state := PartitionState.backfillInProgress }] :
        List InfoIndexPartitionResponse).Perm
      [{ exists_ := true, fingerprint_version := some 5, backfill_percent := 40,
          backfill_in_progress := true, state := PartitionState.backfillInProgress },
        { exists_ := true, fingerprint_version := some 5, backfill_percent := 20,
          backfill_in_progress := false, state := PartitionState.ready }]) ∧
    (resultCore (foldResponses
        [{ exists_ := true, fingerprint_version := some 5, backfill_percent := 20,
            backfill_in_progress := false, state := PartitionState.ready },
          { exists_ := true, fingerprint_version := some 5, backfill_percent := 40,
            backfill_in_progress := true, state := PartitionState.backfillInProgress }]) =
      resultCore (foldResponses
        [{ exists_ := true, fingerprint_version := some 5, backfill_percent := 40,
            backfill_in_progress := true, state := PartitionState.backfillInProgress },
          { exists_ := true, fingerprint_version := some 5, backfill_percent := 20,
            backfill_in_progress := false, state := PartitionState.ready }]) ∧
      ((foldResponses
          [{ exists_ := true, fingerprint_version := some 5, backfill_percent := 20,
              backfill_in_progress := false, state := PartitionState.ready },
            { exists_ := true, fingerprint_version := some 5, backfill_percent := 40,
              backfill_in_progress := true, state := PartitionState.backfillInProgress }]).stale_ = false →
        foldResponses
          [{ exists_ := true, fingerprint_version := some 5, backfill_percent := 20,
              backfill_in_progress := false, state := PartitionState.ready },
            { exists_ := true, fingerprint_version := some 5, backfill_percent := 40,
              backfill_in_progress := true, state := PartitionState.backfillInProgress }] =
        foldResponses
          [{ exists_ := true, fingerprint_version := some 5, backfill_percent := 40,
              backfill_in_progress := true, state := PartitionState.backfillInProgress },
            { exists_ := true, fingerprint_version := some 5, backfill_percent := 20,
              backfill_in_progress := false, state := PartitionState.ready }])) :=
  ⟨List.Perm.swap _ _ _, foldResponses_perm_agree _ _ (List.Perm.swap _ _ _)⟩

/-- Counterexample to C1 as stated: with two responses carrying different
fingerprint versions, the two arrival orders yield different pinned
`index_fingerprint_version_` values (the first arrival wins), so the final
accumulators are not identical. -/
theorem foldResponses_order_dependent_cex :
    (([{ exists_ := true, fingerprint_version := some 0, backfill_percent := 0,
          backfill_in_progress := false, state := PartitionState.ready },
        { exists_ := true, fingerprint_version := some 1, backfill_percent := 0,
          backfill_in_progress := false, state := PartitionState.ready }] :
        List InfoIndexPartitionResponse).Perm
      [{ exists_ := true, fingerprint_version := some 1, backfill_percent := 0,
          backfill_in_progress := false, state := PartitionState.ready },
        { exists_ := true, fingerprint_version := some 0, backfill_percent := 0,
          backfill_in_progress := false, state := PartitionState.ready }]) ∧
    (foldResponses
        [{ exists_ := true, fingerprint_version := some 0, backfill_percent := 0,
            backfill_in_progress := false, state := PartitionState.ready },
          { exists_ := true, fingerprint_version := some 1, backfill_percent := 0,
            backfill_in_progress := false, state := PartitionState.ready }]).index_fingerprint_version_ ≠
      (foldResponses
        [{ exists_ := true, fingerprint_version := some 1, backfill_percent := 0,
            backfill_in_progress := false, state := PartitionState.ready },
          { exists_ := true, fingerprint_version := some 0, backfill_percent := 0,
            backfill_in_progress := false, state := PartitionState.ready }]).index_fingerprint_version_ :=
  ⟨List.Perm.swap _ _ _, by decide⟩

lemma fold_outcomes_exists (l : List Outcome) :
    ∀ s : AggregatedResult,
      (l.foldl onOutcome s).exists_ = (s.exists_ && l.all outcomeExists) := by
  induction l with
  | nil => intro s; simp
  | cons o t ih =>
    intro s
    cases o with
    | success r =>
      simp only [List.foldl_cons, List.all_cons, ih, onOutcome, onResponse,
        outcomeExists, Bool.and_assoc]
    | failure =>
      simp only [List.foldl_cons, List.all_cons, ih, onOutcome, outcomeExists]
      simp

/-- C2: the aggregate `exists` is the logical AND over every target node's
contribution, where a node that failed or did not answer contributes
`false` (see `outcomeExists`); hence any single false or unanswered node
makes the aggregate false. -/
theorem attemptAgg_exists_eq_all (env : FanoutEnv) (i : Nat) :
    (attemptAgg env i).exists_ =
      ((env.targetsAt i).map (env.outcomeAt i)).all outcomeExists := by
  rw [attemptAgg, foldOutcomes, fold_outcomes_exists]
  rfl

/-- C3: after folding one attempt's responses, `ShouldRetry()` is true
exactly when two of the fingerprint versions observed in that attempt
differ. -/
theorem shouldRetry_iff_version_mismatch (l : List InfoIndexPartitionResponse) :
    shouldRetry (foldResponses l) = true ↔
      ∃ a ∈ versionsOf l, ∃ b ∈ versionsOf l, a ≠ b := by
  rw [shouldRetry, foldResponses_stale]
  exact staleOf_eq_true_iff _

lemma onResponse_min_le_max (s : AggregatedResult)
    (r : InfoIndexPartitionResponse)
    (h : s.responded_ = 0 ∨
      s.backfill_complete_percent_min_ ≤ s.backfill_complete_percent_max_) :
    (onResponse s r).backfill_complete_percent_min_ ≤
      (onResponse s r).backfill_complete_percent_max_ := by
  by_cases hr : s.responded_ = 0
  · simp [onResponse, hr]
  · have hle : s.backfill_complete_percent_min_ ≤
        s.backfill_complete_percent_max_ := h.resolve_left hr
    simp only [onResponse, if_neg hr]
    exact le_trans (min_le_left _ _) (le_trans hle (le_max_left _ _))

lemma fold_min_le_max (l : List InfoIndexPartitionResponse) :
    ∀ s : AggregatedResult,
      (s.responded_ = 0 ∨
        s.backfill_complete_percent_min_ ≤ s.backfill_complete_percent_max_) →
      ((l.foldl onResponse s).responded_ = 0 ∨
        (l.foldl onResponse s).backfill_complete_percent_min_ ≤
          (l.foldl onResponse s).backfill_complete_percent_max_) := by
  induction l with
  | nil => intro s h; exact h
  | cons r t ih =>
    intro s h
    exact ih (onResponse s r) (Or.inr (onResponse_min_le_max s r h))

/-- C4: once at least one response has been folded, the running backfill
minimum is at most the running maximum, and folding any further response
preserves the inequality. -/
theorem backfill_min_le_max (l : List InfoIndexPartitionResponse)
    (h : l ≠ []) :
    (foldResponses l).backfill_complete_percent_min_ ≤
      (foldResponses l).backfill_complete_percent_max_ ∧
    ∀ r : InfoIndexPartitionResponse,
      (onResponse (foldResponses l) r).backfill_complete_percent_min_ ≤
        (onResponse (foldResponses l) r).backfill_complete_percent_max_ := by
  have hd := fold_min_le_max l initAggregatedResult (Or.inl rfl)
  have hne : (foldResponses l).responded_ ≠ 0 := by
    rw [foldResponses_responded]
    intro h0
    exact h (List.length_eq_zero.mp h0)
  have hle : (foldResponses l).backfill_complete_percent_min_ ≤
      (foldResponses l).backfill_complete_percent_max_ := by
    rw [foldResponses] at hne ⊢
    exact hd.resolve_left hne
  exact ⟨hle, fun r => onResponse_min_le_max _ r (Or.inr hle)⟩

/-- Witness for C4 at a concrete single-response attempt. -/
theorem backfill_min_le_max_witness :
    (([{ exists_ := true, fingerprint_version := some 7, backfill_percent := 35,
          backfill_in_progress := true, state := PartitionState.backfillInProgress }] :
        List InfoIndexPartitionResponse) ≠ []) ∧
    ((foldResponses
        [{ exists_ := true, fingerprint_version := some 7, backfill_percent := 35,
            backfill_in_progress := true, state := PartitionState.backfillInProgress }]).backfill_complete_percent_min_ ≤
      (foldResponses
        [{ exists_ := true, fingerprint_version := some 7, backfill_percent := 35,
            backfill_in_progress := true, state := PartitionState.backfillInProgress }]).backfill_complete_percent_max_ ∧
    ∀ r : InfoIndexPartitionResponse,
      (onResponse (foldResponses
        [{ exists_ := true, fingerprint_version := some 7, backfill_percent := 35,
            backfill_in_progress := true, state := PartitionState.backfillInProgress }]) r).backfill_complete_percent_min_ ≤
        (onResponse (foldResponses
          [{ exists_ := true, fingerprint_version := some 7, backfill_percent := 35,
              backfill_in_progress := true, state := PartitionState.backfillInProgress }]) r).backfill_complete_percent_max_) :=
  ⟨by simp, backfill_min_le_max _ (by simp)⟩

lemma runFrom_ok_bound (env : FanoutEnv) :
    ∀ (r i : Nat) (s : AggregatedResult) (n : Nat),
      runFrom env i r = Except.ok (s, n) → n ≤ i + r + 1 := by
  intro r
  induction r with
  | zero =>
    intro i s n h
    rw [runFrom] at h
    cases hA : attemptResult env i with
    | error e => rw [hA] at h; exact absurd h (by simp)
    | ok s' =>
      rw [hA] at h
      by_cases hr : shouldRetry s' = true <;> simp [hr] at h <;> omega
  | succ r ih =>
    intro i s n h
    rw [runFrom] at h
    cases hA : attemptResult env i with
    | error e => rw [hA] at h; exact absurd h (by simp)
    | ok s' =>
      rw [hA] at h
      by_cases hr : shouldRetry s' = true
      · simp only [hr, if_true] at h
        have := ih (i + 1) s n h
        omega
      · simp [hr] at h
        omega

lemma runFrom_all_retry (env : FanoutEnv) :
    ∀ (r i : Nat),
      (∀ j, i ≤ j → j ≤ i + r →
        attemptResult env j = Except.ok (attemptAgg env j) ∧
        shouldRetry (attemptAgg env j) = true) →
      runFrom env i r = Except.ok (attemptAgg env (i + r), i + r + 1) := by
  intro r
  induction r with
  | zero =>
    intro i h
    obtain ⟨hA, hS⟩ := h i (Nat.le_refl i) (Nat.le_add_right i 0)
    rw [runFrom, hA]
    simp [hS]
  | succ r ih =>
    intro i h
    obtain ⟨hA, hS⟩ := h i (Nat.le_refl i) (Nat.le_add_right i (r + 1))
    rw [runFrom, hA]
    simp only [hS, if_true]
    have hrec := ih (i + 1)
      (fun j hj1 hj2 => h j (Nat.le_trans (Nat.le_succ i) hj1) (by omega))
    have e₁ : i + 1 + r = i + (r + 1) := by omega
    rw [hrec, e₁]

/-- C5: the retry loop runs at most `cap` attempts; when every attempt up
to the cap observes a fingerprint mismatch (ShouldRetry stays true),
`execute` still terminates, performing exactly `cap` attempts and
returning the best-effort aggregate of the last attempt with its stale
flag set. -/
theorem retry_loop_bounded (env : FanoutEnv) (cap : Nat) (h : 1 ≤ cap) :
    (∀ (s : AggregatedResult) (n : Nat),
      execute env cap = Except.ok (s, n) → n ≤ cap) ∧
    ((∀ i, i < cap →
        attemptResult env i = Except.ok (attemptAgg env i) ∧
        shouldRetry (attemptAgg env i) = true) →
      execute env cap = Except.ok (attemptAgg env (cap - 1), cap) ∧
      (attemptAgg env (cap - 1)).stale_ = true) := by
  constructor
  · intro s n hn
    have := runFrom_ok_bound env (cap - 1) 0 s n hn
    omega
  · intro hall
    have h1 := runFrom_all_retry env (cap - 1) 0
      (fun j _ hj2 => hall j (by omega))
    have e₁ : 0 + (cap - 1) = cap - 1 := by omega
    have e₂ : cap - 1 + 1 = cap := by omega
    rw [e₁] at h1
    rw [e₂] at h1
    refine ⟨h1, ?_⟩
    have := (hall (cap - 1) (by omega)).2
    rw [shouldRetry] at this
    exact this

/-- Witness for C5: two nodes that disagree on the fingerprint version in
every attempt, with an attempt cap of 2. -/
theorem retry_loop_bounded_witness :
    (1 ≤ 2) ∧
    ((∀ (s : AggregatedResult) (n : Nat),
      execute
        (FanoutEnv.mk
          (fun _ => [NodeInfo.mk 0 "a" "primary", NodeInfo.mk 1 "b" "primary"])
          (fun _ node => Outcome.success
            { exists_ := true, fingerprint_version := some node.id,
              backfill_percent := 0, backfill_in_progress := false,
              state := PartitionState.ready })
          (fun _ _ => true)) 2 = Except.ok (s, n) → n ≤ 2) ∧
    ((∀ i, i < 2 →
        attemptResult
          (FanoutEnv.mk
            (fun _ => [NodeInfo.mk 0 "a" "primary", NodeInfo.mk 1 "b" "primary"])
            (fun _ node => Outcome.success
              { exists_ := true, fingerprint_version := some node.id,
                backfill_percent := 0, backfill_in_progress := false,
                state := PartitionState.ready })
            (fun _ _ => true)) i =
          Except.ok (attemptAgg
            (FanoutEnv.mk
              (fun _ => [NodeInfo.mk 0 "a" "primary", NodeInfo.mk 1 "b" "primary"])
              (fun _ node => Outcome.success
                { exists_ := true, fingerprint_version := some node.id,
                  backfill_percent := 0, backfill_in_progress := false,
                  state := PartitionState.ready })
              (fun _ _ => true)) i) ∧
        shouldRetry (attemptAgg
          (FanoutEnv.mk
            (fun _ => [NodeInfo.mk 0 "a" "primary", NodeInfo.mk 1 "b" "primary"])
            (fun _ node => Outcome.success
              { exists_ := true, fingerprint_version := some node.id,
                backfill_percent := 0, backfill_in_progress := false,
                state := PartitionState.ready })
            (fun _ _ => true)) i) = true) →
      execute
        (FanoutEnv.mk
          (fun _ => [NodeInfo.mk 0 "a" "primary", NodeInfo.mk 1 "b" "primary"])
          (fun _ node => Outcome.success
            { exists_ := true, fingerprint_version := some node.id,
              backfill_percent := 0, backfill_in_progress := false,
              state := PartitionState.ready })
          (fun _ _ => true)) 2 =
        Except.ok (attemptAgg
          (FanoutEnv.mk
            (fun _ => [NodeInfo.mk 0 "a" "primary", NodeInfo.mk 1 "b" "primary"])
            (fun _ node => Outcome.success
              { exists_ := true, fingerprint_version := some node.id,
                backfill_percent := 0, backfill_in_progress := false,
                state := PartitionState.ready })
            (fun _ _ => true)) (2 - 1), 2) ∧
      (attemptAgg
        (FanoutEnv.mk
          (fun _ => [NodeInfo.mk 0 "a" "primary", NodeInfo.mk 1 "b" "primary"])
          (fun _ node => Outcome.success
            { exists_ := true, fingerprint_version := some node.id,
              backfill_percent := 0, backfill_in_progress := false,
              state := PartitionState.ready })
          (fun _ _ => true)) (2 - 1)).stale_ = true)) :=
  ⟨by decide, retry_loop_bounded _ 2 (by decide)⟩

/-- C6: an empty resolved target set makes the whole execution fail
terminally with the TopologyEmpty ("not found") error; no aggregate is
produced and no retry happens. -/
theorem empty_targets_topology_empty (env : FanoutEnv) (cap : Nat)
    (h : env.targetsAt 0 = []) :
    execute env cap = Except.error FanoutError.topologyEmpty := by
  have hA : attemptResult env 0 = Except.error FanoutError.topologyEmpty := by
    rw [attemptResult]
    simp [h]
  rw [execute, runFrom, hA]

/-- Witness for C6: an environment resolving no targets. -/
theorem empty_targets_topology_empty_witness :
    ((FanoutEnv.mk (fun _ => []) (fun _ _ => Outcome.failure)
        (fun _ _ => true)).targetsAt 0 = []) ∧
    execute (FanoutEnv.mk (fun _ => []) (fun _ _ => Outcome.failure)
        (fun _ _ => true)) 1 = Except.error FanoutError.topologyEmpty :=
  ⟨rfl, empty_targets_topology_empty _ 1 rfl⟩

/-- C7: when the round deadline elapses before every target of the first
attempt has answered, the execution fails terminally with the RoundTimeout
error; no partial aggregate is ever returned and `GenerateReply` is never
reached. -/
theorem incomplete_coverage_round_timeout (env : FanoutEnv) (cap : Nat)
    (h₁ : env.targetsAt 0 ≠ [])
    (h₂ : ∃ node ∈ env.targetsAt 0, env.coveredAt 0 node = false) :
    execute env cap = Except.error FanoutError.roundTimeout := by
  have hA : attemptResult env 0 = Except.error FanoutError.roundTimeout := by
    rw [attemptResult]
    have hne : ¬ ((env.targetsAt 0).isEmpty = true) :=
      fun hempty => h₁ (List.isEmpty_iff.mp hempty)
    rw [if_neg hne]
    obtain ⟨node, hmem, hcov⟩ := h₂
    have hall : ¬ ((env.targetsAt 0).all (env.coveredAt 0) = true) := by
      intro hall
      have := List.all_eq_true.mp hall node hmem
      rw [hcov] at this
      exact absurd this (by simp)
    rw [if_neg hall]
  rw [execute, runFrom, hA]

/-- Witness for C7: a single resolved target that never answers before the
deadline. -/
theorem incomplete_coverage_round_timeout_witness :
    ((FanoutEnv.mk (fun _ => [NodeInfo.mk 0 "a" "primary"])
        (fun _ _ => Outcome.failure) (fun _ _ => false)).targetsAt 0 ≠ []) ∧
    (∃ node ∈ (FanoutEnv.mk (fun _ => [NodeInfo.mk 0 "a" "primary"])
        (fun _ _ => Outcome.failure) (fun _ _ => false)).targetsAt 0,
      (FanoutEnv.mk (fun _ => [NodeInfo.mk 0 "a" "primary"])
        (fun _ _ => Outcome.failure) (fun _ _ => false)).coveredAt 0 node = false) ∧
    execute (FanoutEnv.mk (fun _ => [NodeInfo.mk 0 "a" "primary"])
        (fun _ _ => Outcome.failure) (fun _ _ => false)) 3 =
      Except.error FanoutError.roundTimeout :=
  ⟨by simp, ⟨NodeInfo.mk 0 "a" "primary", by simp, rfl⟩,
    incomplete_coverage_round_timeout _ 3 (by simp)
      ⟨NodeInfo.mk 0 "a" "primary", by simp, rfl⟩⟩

/-- C8: the generated per-node request does not depend on the addressed
node and carries exactly the operation's {db_num, index_name}. -/
theorem generateRequest_uniform (p : FanoutParams) (n₁ n₂ : NodeInfo) :
    generateRequest p n₁ = generateRequest p n₂ ∧
    (generateRequest p n₁).db_num = p.db_num_ ∧
    (generateRequest p n₁).index_name = p.index_name_ :=
  ⟨rfl, rfl, rfl⟩

/-- C9: with fewer than two arguments, `FTTestCallCmd` returns the
InvalidArgumentError usage message and emits nothing on the reply
channel. -/
theorem ftTestCallCmd_usage_error (env : TestCallEnv) (argv : List String)
    (h : argv.length < 2) :
    ftTestCallCmd env argv =
      (Except.error "Usage: FT.TESTCALL <command> [args...]", []) := by
  rw [ftTestCallCmd, if_pos h]

/-- Witness for C9 at the empty argument vector. -/
theorem ftTestCallCmd_usage_error_witness :
    (([] : List String).length < 2) ∧
    ftTestCallCmd (TestCallEnv.mk none 0) [] =
      (Except.error "Usage: FT.TESTCALL <command> [args...]", []) :=
  ⟨by decide, ftTestCallCmd_usage_error (TestCallEnv.mk none 0) [] (by decide)⟩

/-- The bookkeeping invariant of the body of `FTTestCallCmd`: the events
emitted so far are the postponed-array opening followed by simple-string
elements, and `reply_count` equals the number of those elements. -/
def counted (st : RState) : Prop :=
  ∃ ms : List String,
    st.events = ReplyEvent.arrayPostponed :: ms.map ReplyEvent.simpleString ∧
    st.count = ms.length

lemma counted_replyAndCount {st : RState} (h : counted st) (s : String) :
    counted (replyAndCount st s) := by
  obtain ⟨ms, he, hc⟩ := h
  exact ⟨ms ++ [s], by simp [replyAndCount, he, hc]⟩

lemma counted_processNode {st : RState} (h : counted st) (ty : String)
    (node : CallReply) : counted (processNode st ty node) := by
  cases node with
  | arr elems =>
    cases elems with
    | nil => exact h
    | cons ipReply t =>
      cases t with
      | nil => exact h
      | cons portReply rest => exact counted_replyAndCount h _
  | str s => exact h
  | err s => exact h
  | intg n => exact h
  | null => exact h

lemma counted_processNodes (nodes : List CallReply) :
    ∀ (st : RState) (j : Nat), counted st →
      counted (processNodes st j nodes) := by
  induction nodes with
  | nil => intro st j h; exact h
  | cons node rest ih =>
    intro st j h
    exact ih _ (j + 1) (counted_processNode h _ node)

lemma counted_processSlotRange {st : RState} (h : counted st) (i : Nat)
    (slot_range : CallReply) : counted (processSlotRange st i slot_range) := by
  cases slot_range with
  | arr elems =>
    cases elems with
    | nil =>
      exact counted_processNodes _ _ 2 (counted_replyAndCount h _)
    | cons startSlot t =>
      cases t with
      | nil =>
        exact counted_processNodes _ _ 2 (counted_replyAndCount h _)
      | cons endSlot u =>
        exact counted_processNodes _ _ 2
          (counted_replyAndCount (counted_replyAndCount h _) _)
  | str s => exact h
  | err s => exact h
  | intg n => exact h
  | null => exact h

lemma counted_processSlotRanges (slots : List CallReply) :
    ∀ (st : RState) (i : Nat), counted st →
      counted (processSlotRanges st i slots) := by
  induction slots with
  | nil => intro st i h; exact h
  | cons slot_range rest ih =>
    intro st i h
    exact ih _ (i + 1) (counted_processSlotRange h i slot_range)

lemma counted_runCommand (env : TestCallEnv) (command : String)
    {st : RState} (h : counted st) : counted (runCommand env command st) := by
  rw [runCommand]
  by_cases hc : command = "CLUSTER_SLOTS"
  · rw [if_pos hc]
    cases env.clusterSlotsReply with
    | none => exact counted_replyAndCount h _
    | some reply =>
      cases reply with
      | err e => exact counted_replyAndCount (counted_replyAndCount h _) _
      | arr slots =>
        exact counted_processSlotRanges _ _ 0
          (counted_replyAndCount (counted_replyAndCount h _) _)
      | str s => exact counted_replyAndCount h _
      | intg n => exact counted_replyAndCount h _
      | null => exact counted_replyAndCount h _
  · rw [if_neg hc]
    exact counted_replyAndCount h _

lemma ftTestCallCmd_eq (env : TestCallEnv) (argv : List String)
    (h : ¬ (argv.length < 2)) :
    ftTestCallCmd env argv =
      (Except.ok (),
        (runCommand env (argv.getD 1 "")
            (replyAndCount
              (replyAndCount (RState.mk [ReplyEvent.arrayPostponed] 0)
                "=== Testing ValkeyModule_Call ===")
              ("Command: " ++ argv.getD 1 ""))).events ++
          [ReplyEvent.setArrayLength
            (runCommand env (argv.getD 1 "")
                (replyAndCount
                  (replyAndCount (RState.mk [ReplyEvent.arrayPostponed] 0)
                    "=== Testing ValkeyModule_Call ===")
                  ("Command: " ++ argv.getD 1 ""))).count]) := by
  rw [ftTestCallCmd, if_neg h]

/-- C10: with at least two arguments `FTTestCallCmd` returns OkStatus
(even for an unrecognized subcommand, which is reported as the reply
element "Unknown test. Available: CLUSTER_SLOTS"), and the postponed
array length is finalized to exactly the number of elements emitted. -/
theorem ftTestCallCmd_ok_reply (env : TestCallEnv) (argv : List String)
    (h : 2 ≤ argv.length) :
    (ftTestCallCmd env argv).1 = Except.ok () ∧
    ∃ msgs : List String,
      (ftTestCallCmd env argv).2 =
        ReplyEvent.arrayPostponed :: msgs.map ReplyEvent.simpleString ++
          [ReplyEvent.setArrayLength msgs.length] ∧
      (argv.getD 1 "" ≠ "CLUSTER_SLOTS" →
        "Unknown test. Available: CLUSTER_SLOTS" ∈ msgs) := by
  have hlt : ¬ (argv.length < 2) := by omega
  have heq := ftTestCallCmd_eq env argv hlt
  have hst2 : counted
      (replyAndCount
        (replyAndCount (RState.mk [ReplyEvent.arrayPostponed] 0)
          "=== Testing ValkeyModule_Call ===")
        ("Command: " ++ argv.getD 1 "")) :=
    ⟨["=== Testing ValkeyModule_Call ===", "Command: " ++ argv.getD 1 ""],
      by simp [replyAndCount]⟩
  by_cases hc : argv.getD 1 "" = "CLUSTER_SLOTS"
  · obtain ⟨msgs, he, hcnt⟩ := counted_runCommand env (argv.getD 1 "") hst2
    refine ⟨by rw [heq], msgs, ?_, fun hne => absurd hc hne⟩
    rw [heq]
    simp only [he, hcnt]
  · have hrun : runCommand env (argv.getD 1 "")
        (replyAndCount
          (replyAndCount (RState.mk [ReplyEvent.arrayPostponed] 0)
            "=== Testing ValkeyModule_Call ===")
          ("Command: " ++ argv.getD 1 "")) =
        replyAndCount
          (replyAndCount
            (replyAndCount (RState.mk [ReplyEvent.arrayPostponed] 0)
              "=== Testing ValkeyModule_Call ===")
            ("Command: " ++ argv.getD 1 ""))
          "Unknown test. Available: CLUSTER_SLOTS" := by
      rw [runCommand, if_neg hc]
    refine ⟨by rw [heq],
      ["=== Testing ValkeyModule_Call ===", "Command: " ++ argv.getD 1 "",
        "Unknown test. Available: CLUSTER_SLOTS"], ?_, fun _ => by simp⟩
    rw [heq]
    simp only [hrun]
    simp [replyAndCount]

/-- Witness for C10 at a concrete unrecognized subcommand. -/
theorem ftTestCallCmd_ok_reply_witness :
    (2 ≤ (["FT.TESTCALL", "BOGUS"] : List String).length) ∧
    ((ftTestCallCmd (TestCallEnv.mk none 0) ["FT.TESTCALL", "BOGUS"]).1 =
        Except.ok () ∧
      ∃ msgs : List String,
        (ftTestCallCmd (TestCallEnv.mk none 0) ["FT.TESTCALL", "BOGUS"]).2 =
          ReplyEvent.arrayPostponed :: msgs.map ReplyEvent.simpleString ++
            [ReplyEvent.setArrayLength msgs.length] ∧
        ((["FT.TESTCALL", "BOGUS"] : List String).getD 1 "" ≠ "CLUSTER_SLOTS" →
          "Unknown test. Available: CLUSTER_SLOTS" ∈ msgs)) :=
  ⟨by decide, ftTestCallCmd_ok_reply (TestCallEnv.mk none 0)
    ["FT.TESTCALL", "BOGUS"] (by decide)⟩

end ValkeySearch
